import Mathlib

/-!
Shallow embedding of the Truth-or-die game server core
(`src/utils/calculation.ts`, `src/utils/randomizer.ts`, and the
`GameStateManager` in `src/services/gameStateManager.ts`).

JavaScript numbers are modelled as rationals (`ℚ`): every arithmetic
operation the embedded code performs is exact on the inputs used here.
The Prisma database is modelled as in-memory lists; `Map` objects are
modelled as association lists with `Map.set` semantics.
-/

namespace TruthOrDie

/-- Position side, `'LONG' | 'SHORT'` in `types.ts`. -/
inductive PositionType where
  | LONG
  | SHORT
deriving DecidableEq, Repr

/-- `calculatePnL` from `src/utils/calculation.ts`:
`priceChange = currentPrice - entryPrice`,
`priceChangePercent = priceChange / entryPrice`,
LONG → `entryAmount * priceChangePercent * leverage`,
SHORT → `entryAmount * -priceChangePercent * leverage`. -/
def calculatePnL (positionType : PositionType)
    (entryPrice currentPrice entryAmount leverage : ℚ) : ℚ :=
  let priceChange := currentPrice - entryPrice
  let priceChangePercent := priceChange / entryPrice
  match positionType with
  | PositionType.LONG => entryAmount * priceChangePercent * leverage
  | PositionType.SHORT => entryAmount * (-priceChangePercent) * leverage

/-- `calculatePnLPercentage` from `src/utils/calculation.ts`. -/
def calculatePnLPercentage (pnl entryAmount : ℚ) : ℚ :=
  pnl / entryAmount * 100

/-- `calculateLiquidationPrice` from `src/utils/calculation.ts`:
`liquidationPercentage = 1 / leverage`,
LONG → `entryPrice * (1 - liquidationPercentage)`,
SHORT → `entryPrice * (1 + liquidationPercentage)`. -/
def calculateLiquidationPrice (positionType : PositionType)
    (entryPrice leverage : ℚ) : ℚ :=
  let liquidationPercentage := 1 / leverage
  match positionType with
  | PositionType.LONG => entryPrice * (1 - liquidationPercentage)
  | PositionType.SHORT => entryPrice * (1 + liquidationPercentage)

/-- `isLiquidated` from `src/utils/calculation.ts`:
LONG → `currentPrice <= liquidationPrice`,
SHORT → `currentPrice >= liquidationPrice`. -/
def isLiquidated (positionType : PositionType)
    (entryPrice currentPrice leverage : ℚ) : Bool :=
  let liquidationPrice := calculateLiquidationPrice positionType entryPrice leverage
  match positionType with
  | PositionType.LONG => decide (currentPrice ≤ liquidationPrice)
  | PositionType.SHORT => decide (liquidationPrice ≤ currentPrice)

/-- `calculatePayout` from `src/utils/calculation.ts`:
`liquidated → 0`; otherwise `Math.max(0, entryAmount + pnl)`.
The `didShoot` parameter is accepted but never read. -/
def calculatePayout (entryAmount pnl : ℚ) (didShoot liquidated : Bool) : ℚ :=
  if liquidated then 0 else max 0 (entryAmount + pnl)

/-- `assignRandomPositions` from `src/utils/randomizer.ts`, applied to the
already-shuffled id list (the shuffle is `[...playerIds].sort(() => Math.random() - 0.5)`,
i.e. some permutation of the input; theorems quantify over that permutation):
`halfPoint = Math.floor(shuffled.length / 2)`; index `< halfPoint` → LONG,
otherwise SHORT. -/
def assignRandomPositions (shuffled : List String) : List (String × PositionType) :=
  let halfPoint := shuffled.length / 2
  shuffled.enum.map fun ip =>
    (ip.2, if ip.1 < halfPoint then PositionType.LONG else PositionType.SHORT)

/-- Game phase, `'LOBBY' | 'ROUND'` in `types.ts`. -/
inductive GamePhase where
  | LOBBY
  | ROUND
deriving DecidableEq, Repr

/-- `PlayerPosition` from `types.ts`. -/
structure PlayerPosition where
  playerId : String
  positionType : PositionType
  betAmount : ℚ
  entryPrice : ℚ
  currentPnl : ℚ
  liquidated : Bool
  didShoot : Bool
  shotAt : Option Nat
deriving DecidableEq, Repr

/-- `LobbyPlayer` from `types.ts`. -/
structure LobbyPlayer where
  playerId : String
  username : String
  betAmount : ℚ
  balance : ℚ
  joinedAt : Nat
deriving DecidableEq, Repr

/-- `RoundState` from `types.ts`; the `positions` Map is an association
list, timing fields not read by any embedded operation are omitted. -/
structure RoundState where
  id : String
  pair : String
  entryPrice : ℚ
  currentPrice : ℚ
  leverage : ℚ
  positions : List (String × PlayerPosition)
deriving DecidableEq, Repr

/-- `GameState` from `types.ts` (timing fields omitted). -/
structure GameState where
  phase : GamePhase
  currentRound : Option RoundState
deriving DecidableEq, Repr

/-- A row of the Prisma `player` table (the fields the embedded
operations read or write). -/
structure DbPlayer where
  id : String
  username : String
  demoBalance : ℚ
  totalPnl : ℚ
  gamesPlayed : Nat
  gamesWon : Nat
  gamesLost : Nat
deriving DecidableEq, Repr

/-- The persistent store: the `player` table plus the `lobbyEntry` table
(`(playerId, betAmount)` rows). Position/round rows are not modelled:
no claim reads them back. -/
structure Db where
  players : List DbPlayer
  lobbyEntries : List (String × ℚ)
deriving DecidableEq, Repr

/-- The parts of `CONFIG` (in `src/config.ts`, not shipped with the
sources; the two scalars are left abstract) that the embedded
operations read. -/
structure Config where
  MIN_BET_AMOUNT : ℚ
  DEFAULT_DEMO_BALANCE : ℚ
deriving DecidableEq, Repr

/-- The mutable state of a `GameStateManager` together with the store. -/
structure ServerState where
  game : GameState
  lobbyPlayers : List (String × LobbyPlayer)
  db : Db
deriving DecidableEq, Repr

/-- `Map.get` on an association list. -/
def lookupKey {α : Type} (k : String) : List (String × α) → Option α
  | [] => none
  | (k', v) :: rest => if k' = k then some v else lookupKey k rest

/-- `Map.set` on an association list: replaces the value at an existing
key, appends otherwise. -/
def setKey {α : Type} (k : String) (v : α) : List (String × α) → List (String × α)
  | [] => [(k, v)]
  | (k', v') :: rest => if k' = k then (k, v) :: rest else (k', v') :: setKey k v rest

/-- `prisma.player.findUnique({ where: { username } })`. -/
def findByUsername (players : List DbPlayer) (uname : String) : Option DbPlayer :=
  players.find? fun p => p.username == uname

/-- `prisma.player.findUnique({ where: { id } })`. -/
def findById (players : List DbPlayer) (pid : String) : Option DbPlayer :=
  players.find? fun p => p.id == pid

/-- `prisma.player.update({ where: { id } })` (no-op when the row is
absent, as no embedded call site reaches that case). -/
def updateById (players : List DbPlayer) (pid : String) (f : DbPlayer → DbPlayer) :
    List DbPlayer :=
  players.map fun q => if q.id = pid then f q else q

/-- `prisma.player.upsert({ where: { username }, update: { id: playerId },
create: { id: playerId, username, demoBalance: CONFIG.PLAYER.DEFAULT_DEMO_BALANCE } })`
from `GameStateManager.joinLobby`; returns the updated table and the
resulting row. -/
def upsertByUsername (cfg : Config) (players : List DbPlayer)
    (playerId username : String) : List DbPlayer × DbPlayer :=
  match findByUsername players username with
  | some p =>
      (players.map fun q => if q.username = username then { q with id := playerId } else q,
       { p with id := playerId })
  | none =>
      let p : DbPlayer :=
        { id := playerId, username := username,
          demoBalance := cfg.DEFAULT_DEMO_BALANCE,
          totalPnl := 0, gamesPlayed := 0, gamesWon := 0, gamesLost := 0 }
      (players ++ [p], p)

/-- `GameStateManager.joinLobby(playerId, username, betAmount)`.
Guards in source order: wrong phase, bet below minimum, already in the
roster; then the player upsert; then the balance check; on success the
roster gains the entry, a `lobbyEntry` row is created and
`lobby:player_joined` is emitted. Returns the resulting state and
`some errorMessage` when the call threw. -/
def joinLobby (cfg : Config) (now : Nat) (st : ServerState)
    (playerId username : String) (betAmount : ℚ) : ServerState × Option String :=
  if st.game.phase ≠ GamePhase.LOBBY then
    (st, some "Cannot join lobby during active round")
  else if betAmount < cfg.MIN_BET_AMOUNT then
    (st, some "Minimum bet")
  else if (lookupKey playerId st.lobbyPlayers).isSome then
    (st, some "Already in lobby")
  else
    let up := upsertByUsername cfg st.db.players playerId username
    let st' := { st with db := { st.db with players := up.1 } }
    if up.2.demoBalance < betAmount then
      (st', some "Insufficient balance")
    else
      let entry : LobbyPlayer :=
        { playerId := playerId, username := username, betAmount := betAmount,
          balance := up.2.demoBalance, joinedAt := now }
      ({ st' with
          lobbyPlayers := setKey playerId entry st'.lobbyPlayers,
          db := { st'.db with lobbyEntries := st'.db.lobbyEntries ++ [(playerId, betAmount)] } },
       none)

/-- `GameStateManager.shoot(playerId, roundId)`.
Guards in source order: no active round, round id mismatch, position not
found, already shot, liquidated. On success: marks `didShoot`, records
`shotAt`, and immediately credits the player row with
`demoBalance += payout` and `totalPnl += pnl`, where `pnl` is the frozen
`position.currentPnl` and `payout = calculatePayout(betAmount, pnl, true, false)`. -/
def shoot (now : Nat) (st : ServerState) (playerId roundId : String) :
    ServerState × Option String :=
  match st.game.phase, st.game.currentRound with
  | GamePhase.ROUND, some round =>
    if round.id ≠ roundId then (st, some "Round ID mismatch")
    else
      match lookupKey playerId round.positions with
      | none => (st, some "Position not found")
      | some position =>
        if position.didShoot then (st, some "Already shot")
        else if position.liquidated then (st, some "Position liquidated")
        else
          let position' := { position with didShoot := true, shotAt := some now }
          let pnl := position.currentPnl
          let payout := calculatePayout position.betAmount pnl true false
          let round' := { round with positions := setKey playerId position' round.positions }
          let players' := updateById st.db.players playerId fun p =>
            { p with demoBalance := p.demoBalance + payout, totalPnl := p.totalPnl + pnl }
          ({ st with
              game := { st.game with currentRound := some round' },
              db := { st.db with players := players' } }, none)
  | _, _ => (st, some "No active round")

/-- The per-position body of the loop in
`GameStateManager.handlePriceUpdate`: terminal positions
(`liquidated || didShoot`) are skipped unchanged; otherwise `currentPnl`
is recomputed at the tick price and the liquidation test is applied.
The second component records whether this tick liquidated the position
(triggering the database stat update). -/
def tickPosition (leverage price : ℚ) (pos : PlayerPosition) : PlayerPosition × Bool :=
  if pos.liquidated || pos.didShoot then (pos, false)
  else
    let pnl := calculatePnL pos.positionType pos.entryPrice price pos.betAmount leverage
    let pos' := { pos with currentPnl := pnl }
    if isLiquidated pos.positionType pos.entryPrice price leverage then
      ({ pos' with liquidated := true }, true)
    else (pos', false)

/-- `GameStateManager.handlePriceUpdate(priceData)`: no-op unless
`phase == ROUND` with a current round; otherwise updates
`round.currentPrice`, applies `tickPosition` to every position, and for
each position liquidated by this tick applies the player-stat update
`totalPnl -= betAmount; gamesLost += 1`. -/
def handlePriceUpdate (st : ServerState) (price : ℚ) : ServerState :=
  match st.game.phase, st.game.currentRound with
  | GamePhase.ROUND, some round =>
    let positions' := round.positions.map fun e => (e.1, (tickPosition round.leverage price e.2).1)
    let players' := round.positions.foldl
      (fun acc e =>
        if (tickPosition round.leverage price e.2).2 then
          updateById acc e.1 fun p =>
            { p with totalPnl := p.totalPnl - e.2.betAmount, gamesLost := p.gamesLost + 1 }
        else acc)
      st.db.players
    { st with
        game := { st.game with
          currentRound := some { round with currentPrice := price, positions := positions' } },
        db := { st.db with players := players' } }
  | _, _ => st

/-- The per-position settlement of `GameStateManager.endRound`:
`pnl` is the frozen `currentPnl` for shot or liquidated positions and a
fresh `calculatePnL` at the final price otherwise;
`payout = calculatePayout(...)`; the player row gets
`demoBalance += payout`, `totalPnl += pnl`, `gamesPlayed += 1`, and
`gamesWon`/`gamesLost` incremented by the sign of `pnl`.
Note the loop runs over every position, shot ones included. -/
def settleOne (leverage finalPrice : ℚ) (players : List DbPlayer)
    (playerId : String) (pos : PlayerPosition) : List DbPlayer :=
  let pnl := if pos.didShoot || pos.liquidated then pos.currentPnl
             else calculatePnL pos.positionType pos.entryPrice finalPrice pos.betAmount leverage
  let payout := calculatePayout pos.betAmount pnl pos.didShoot pos.liquidated
  updateById players playerId fun p =>
    let p' := { p with demoBalance := p.demoBalance + payout,
                       totalPnl := p.totalPnl + pnl,
                       gamesPlayed := p.gamesPlayed + 1 }
    if 0 < pnl then { p' with gamesWon := p'.gamesWon + 1 }
    else if pnl < 0 then { p' with gamesLost := p'.gamesLost + 1 }
    else p'

/-- `GameStateManager.endRound(reason)`: no-op unless `phase == ROUND`
with a current round; otherwise settles every position at
`round.currentPrice`, then `startLobby()` resets the phase to LOBBY,
drops the round and clears the roster. -/
def endRound (st : ServerState) : ServerState :=
  match st.game.phase, st.game.currentRound with
  | GamePhase.ROUND, some round =>
    let finalPrice := round.currentPrice
    let players' := round.positions.foldl
      (fun acc e => settleOne round.leverage finalPrice acc e.1 e.2) st.db.players
    { game := { phase := GamePhase.LOBBY, currentRound := none },
      lobbyPlayers := [],
      db := { st.db with players := players' } }
  | _, _ => st

/-! ### Lobby broadcast interval model (for the timer-scoping claim)

`startLobby` registers a fresh `setInterval` whose callback is
`if phase !== "LOBBY" { clearInterval; return } ... emit("lobby:update", ...)`.
Nothing else ever clears these intervals: `startLobby` does not cancel
the previous lobby's interval, and `close()` does not hold a handle to
it.  The model numbers lobby instances by how many times `startLobby`
has run (`gen`), keeps the set of still-registered intervals (each
tagged with its owning generation), and logs, for every firing that
emits, the owning generation, the generation of the lobby active at
emission time, and the phase at emission time. -/

/-- An emission of `lobby:update`: (owning lobby generation, active
lobby generation at emission, phase at emission). -/
structure Emission where
  owner : Nat
  activeGen : Nat
  phaseAtEmission : GamePhase
deriving DecidableEq, Repr

/-- The timer-relevant state of the manager. -/
structure LobbySys where
  phase : GamePhase
  gen : Nat
  intervals : List Nat
  emissions : List Emission
deriving DecidableEq, Repr

/-- `startLobby()`: sets `phase = LOBBY`, begins a new lobby instance and
registers its broadcast interval; the previous intervals are untouched. -/
def startLobbyT (s : LobbySys) : LobbySys :=
  { phase := GamePhase.LOBBY, gen := s.gen + 1,
    intervals := s.intervals ++ [s.gen + 1], emissions := s.emissions }

/-- The phase flip performed by `startRound` (`gameState.phase = "ROUND"`). -/
def startRoundT (s : LobbySys) : LobbySys :=
  { s with phase := GamePhase.ROUND }

/-- One firing of the interval owned by generation `g`: exactly the
callback body — if the phase has left LOBBY the interval clears itself
and emits nothing; otherwise it emits `lobby:update`. A cleared or
never-registered interval does nothing. -/
def fireT (s : LobbySys) (g : Nat) : LobbySys :=
  if g ∈ s.intervals then
    if s.phase ≠ GamePhase.LOBBY then
      { s with intervals := s.intervals.erase g }
    else
      { s with emissions := s.emissions ++
          [{ owner := g, activeGen := s.gen, phaseAtEmission := s.phase }] }
  else s

/-- Events that touch the lobby timers. -/
inductive LobbyEv where
  | startL
  | startR
  | fire (g : Nat)
deriving DecidableEq, Repr

/-- One step of the timer model. -/
def lobbyStep (s : LobbySys) : LobbyEv → LobbySys
  | LobbyEv.startL => startLobbyT s
  | LobbyEv.startR => startRoundT s
  | LobbyEv.fire g => fireT s g

/-- Run a sequence of lobby-timer events. -/
def lobbyRun (s : LobbySys) (evs : List LobbyEv) : LobbySys :=
  evs.foldl lobbyStep s

/-- Constructor state: phase LOBBY, no lobby started yet
(`initialize()` then performs the first `startLobby()`). -/
def lobbyInit : LobbySys :=
  { phase := GamePhase.LOBBY, gen := 0, intervals := [], emissions := [] }

/-! ### Within-round event system (ticks and shoot commands) -/

/-- An event hitting the manager during a round: a price tick or a
player `shoot` command. -/
inductive RoundEv where
  | tick (price : ℚ)
  | shootCmd (now : Nat) (playerId roundId : String)

/-- One serialized step of the manager. -/
def roundStep (st : ServerState) : RoundEv → ServerState
  | RoundEv.tick price => handlePriceUpdate st price
  | RoundEv.shootCmd now playerId roundId => (shoot now st playerId roundId).1

/-- Run a sequence of within-round events. -/
def roundRun (st : ServerState) (evs : List RoundEv) : ServerState :=
  evs.foldl roundStep st

/-- The positions of the current round (empty when there is none). -/
def positionsOf (st : ServerState) : List (String × PlayerPosition) :=
  match st.game.currentRound with
  | some round => round.positions
  | none => []

/-- A position is terminal once liquidated or shot. -/
def terminal (pos : PlayerPosition) : Bool :=
  pos.liquidated || pos.didShoot

/-- No position is simultaneously liquidated and shot. -/
def goodPositions (l : List (String × PlayerPosition)) : Bool :=
  l.all fun e => !(e.2.liquidated && e.2.didShoot)

/-- Every position of the current round satisfies the
never-both-terminal-flags property. -/
def goodState (st : ServerState) : Bool :=
  goodPositions (positionsOf st)

/-! ### Concrete states used by witnesses and counterexamples -/

/-- A live LONG position: bet 10 at entry 100, current price 105 with
leverage 10, so `currentPnl = 10 * (5/100) * 10 = 5`. -/
def examplePosition : PlayerPosition :=
  { playerId := "p1", positionType := PositionType.LONG, betAmount := 10,
    entryPrice := 100, currentPnl := 5, liquidated := false,
    didShoot := false, shotAt := none }

/-- A position that has already shot, with frozen `currentPnl = 7`. -/
def exampleShotPosition : PlayerPosition :=
  { playerId := "p2", positionType := PositionType.SHORT, betAmount := 20,
    entryPrice := 100, currentPnl := 7, liquidated := false,
    didShoot := true, shotAt := some 3 }

/-- A one-player active round. -/
def exampleRound : RoundState :=
  { id := "r1", pair := "SOL/USD", entryPrice := 100, currentPrice := 105,
    leverage := 10, positions := [("p1", examplePosition)] }

/-- A two-player active round whose second position already shot. -/
def exampleRound2 : RoundState :=
  { exampleRound with
    positions := [("p1", examplePosition), ("p2", exampleShotPosition)] }

/-- Player table with two rows. -/
def exampleDb : Db :=
  { players :=
      [{ id := "p1", username := "alice", demoBalance := 100, totalPnl := 0,
         gamesPlayed := 0, gamesWon := 0, gamesLost := 0 },
       { id := "p2", username := "bob", demoBalance := 50, totalPnl := 0,
         gamesPlayed := 0, gamesWon := 0, gamesLost := 0 }],
    lobbyEntries := [] }

/-- A ROUND-phase server state holding `exampleRound`. -/
def exampleState : ServerState :=
  { game := { phase := GamePhase.ROUND, currentRound := some exampleRound },
    lobbyPlayers := [], db := exampleDb }

/-- A ROUND-phase server state holding `exampleRound2`. -/
def exampleState2 : ServerState :=
  { game := { phase := GamePhase.ROUND, currentRound := some exampleRound2 },
    lobbyPlayers := [], db := exampleDb }

/-- A LOBBY-phase server state with an empty roster. -/
def exampleLobbyState : ServerState :=
  { game := { phase := GamePhase.LOBBY, currentRound := none },
    lobbyPlayers := [], db := exampleDb }

/-- Concrete configuration values. -/
def exampleConfig : Config :=
  { MIN_BET_AMOUNT := 1, DEFAULT_DEMO_BALANCE := 1000 }

/-! ### Theorems -/

/-- C4: `payout(betAmount, pnl, liquidated)` equals 0 when `liquidated`
and `max(0, betAmount+pnl)` otherwise; it is always ≥ 0 regardless of
the sign of `pnl`; and the `didShoot` argument never changes the
result. -/
theorem calculatePayout_correct (entryAmount pnl : ℚ) (ds ds' liq : Bool) :
    calculatePayout entryAmount pnl ds liq
      = (if liq then 0 else max 0 (entryAmount + pnl)) ∧
    0 ≤ calculatePayout entryAmount pnl ds liq ∧
    calculatePayout entryAmount pnl ds liq = calculatePayout entryAmount pnl ds' liq ∧
    (liq = true → calculatePayout entryAmount pnl ds liq = 0) := by
  refine ⟨rfl, ?_, rfl, ?_⟩
  · unfold calculatePayout
    split
    · exact le_refl 0
    · exact le_max_left 0 _
  · intro h
    simp [calculatePayout, h]

/-- Witness for C4 at `betAmount = 10`, `pnl = -3`, `didShoot` true
versus false, not liquidated. -/
theorem calculatePayout_correct_witness :
    calculatePayout 10 (-3) true false
      = (if false then 0 else max 0 (10 + (-3))) ∧
    0 ≤ calculatePayout 10 (-3) true false ∧
    calculatePayout 10 (-3) true false = calculatePayout 10 (-3) false false ∧
    (false = true → calculatePayout 10 (-3) true false = 0) :=
  calculatePayout_correct 10 (-3) true false false

/-- C5: for positive entry price and leverage, `isLiquidated` is true
exactly when `currentPrice ≤ entryPrice*(1-1/leverage)` for LONG and
exactly when `currentPrice ≥ entryPrice*(1+1/leverage)` for SHORT; at
the liquidation price itself it is true for both sides. -/
theorem isLiquidated_correct (side : PositionType) (entryPrice currentPrice leverage : ℚ)
    (he : 0 < entryPrice) (hl : 0 < leverage) :
    (isLiquidated PositionType.LONG entryPrice currentPrice leverage = true ↔
      currentPrice ≤ entryPrice * (1 - 1 / leverage)) ∧
    (isLiquidated PositionType.SHORT entryPrice currentPrice leverage = true ↔
      entryPrice * (1 + 1 / leverage) ≤ currentPrice) ∧
    isLiquidated side entryPrice
      (calculateLiquidationPrice side entryPrice leverage) leverage = true := by
  refine ⟨?_, ?_, ?_⟩
  · simp [isLiquidated, calculateLiquidationPrice]
  · simp [isLiquidated, calculateLiquidationPrice]
  · cases side <;> simp [isLiquidated, calculateLiquidationPrice]

/-- Witness for C5 at `entryPrice = 100`, `currentPrice = 99`,
`leverage = 500`, side LONG. -/
theorem isLiquidated_correct_witness :
    (0 : ℚ) < 100 ∧ (0 : ℚ) < 500 ∧
    ((isLiquidated PositionType.LONG 100 99 500 = true ↔
        (99 : ℚ) ≤ 100 * (1 - 1 / 500)) ∧
     (isLiquidated PositionType.SHORT 100 99 500 = true ↔
        (100 : ℚ) * (1 + 1 / 500) ≤ 99) ∧
     isLiquidated PositionType.LONG 100
       (calculateLiquidationPrice PositionType.LONG 100 500) 500 = true) :=
  ⟨by norm_num, by norm_num,
   isLiquidated_correct PositionType.LONG 100 99 500 (by norm_num) (by norm_num)⟩

/-- C6: for entry price ≠ 0, `pnl` equals
`betAmount*((currentPrice-entryPrice)/entryPrice)*leverage` for LONG and
its negation for SHORT; at entry 100, current 110, bet 10, leverage 500
the LONG pnl is 500 and the SHORT pnl is -500. -/
theorem calculatePnL_correct (entryPrice currentPrice betAmount leverage : ℚ)
    (he : entryPrice ≠ 0) :
    calculatePnL PositionType.LONG entryPrice currentPrice betAmount leverage
      = betAmount * ((currentPrice - entryPrice) / entryPrice) * leverage ∧
    calculatePnL PositionType.SHORT entryPrice currentPrice betAmount leverage
      = -(betAmount * ((currentPrice - entryPrice) / entryPrice) * leverage) ∧
    calculatePnL PositionType.LONG 100 110 10 500 = 500 ∧
    calculatePnL PositionType.SHORT 100 110 10 500 = -500 := by
  refine ⟨rfl, ?_, by norm_num [calculatePnL], by norm_num [calculatePnL]⟩
  unfold calculatePnL
  ring

/-- Witness for C6 at `entryPrice = 100`, `currentPrice = 110`,
`betAmount = 10`, `leverage = 500`. -/
theorem calculatePnL_correct_witness :
    (100 : ℚ) ≠ 0 ∧
    (calculatePnL PositionType.LONG 100 110 10 500
        = 10 * ((110 - 100) / 100) * 500 ∧
     calculatePnL PositionType.SHORT 100 110 10 500
        = -(10 * ((110 - 100) / 100) * 500) ∧
     calculatePnL PositionType.LONG 100 110 10 500 = 500 ∧
     calculatePnL PositionType.SHORT 100 110 10 500 = -500) :=
  ⟨by norm_num, calculatePnL_correct 100 110 10 500 (by norm_num)⟩

/-- Counting entries of `enumFrom s l` with index below `k`. -/
theorem countP_lt_enumFrom {α : Type} (k : Nat) (l : List α) : ∀ s : Nat,
    (List.enumFrom s l).countP (fun ip => decide (ip.1 < k))
      = min k (s + l.length) - min k s := by
  induction l with
  | nil => intro s; simp
  | cons a t ih =>
      intro s
      rw [List.enumFrom_cons, List.countP_cons, ih (s + 1)]
      by_cases h : s < k <;> simp [h] <;> omega

/-- The keys of an assignment are exactly the shuffled id list. -/
theorem assign_map_fst (shuffled : List String) :
    (assignRandomPositions shuffled).map Prod.fst = shuffled := by
  unfold assignRandomPositions
  rw [List.map_map]
  exact List.enum_map_snd shuffled

/-- Every entry is LONG or SHORT, so the two side counts add up to the
assignment's length. -/
theorem countP_sides_total (l : List (String × PositionType)) :
    l.countP (fun e => decide (e.2 = PositionType.LONG)) +
      l.countP (fun e => decide (e.2 = PositionType.SHORT)) = l.length := by
  induction l with
  | nil => rfl
  | cons a t ih =>
      rw [List.countP_cons, List.countP_cons, List.length_cons]
      cases h : a.2 <;> simp [h] <;> omega

/-- An assignment has one entry per shuffled id. -/
theorem assign_length (shuffled : List String) :
    (assignRandomPositions shuffled).length = shuffled.length := by
  unfold assignRandomPositions
  rw [List.length_map, List.enum_length]

/-- The LONG count of an assignment is `floor(n/2)`. -/
theorem assign_countP_LONG (shuffled : List String) :
    (assignRandomPositions shuffled).countP
      (fun e => decide (e.2 = PositionType.LONG)) = shuffled.length / 2 := by
  unfold assignRandomPositions
  rw [List.countP_map]
  have hcomp : ((fun e : String × PositionType => decide (e.2 = PositionType.LONG)) ∘
      (fun ip : Nat × String =>
        (ip.2, if ip.1 < shuffled.length / 2 then PositionType.LONG
               else PositionType.SHORT)))
      = fun ip : Nat × String => decide (ip.1 < shuffled.length / 2) := by
    funext ip
    by_cases h : ip.1 < shuffled.length / 2 <;> simp [h]
  rw [hcomp]
  show (List.enumFrom 0 shuffled).countP _ = _
  rw [countP_lt_enumFrom (shuffled.length / 2) shuffled 0]
  omega

/-- C9: for every list of distinct playerIds and every shuffle of it,
the assignment gives each id exactly one side, exactly `floor(n/2)`
ids get LONG, the remaining `n - floor(n/2)` get SHORT, and the counts
differ by at most one with the surplus on the SHORT side. -/
theorem assignRandomPositions_correct (playerIds shuffled : List String)
    (hperm : shuffled.Perm playerIds) (hnodup : playerIds.Nodup) :
    (∀ pid ∈ playerIds,
        ((assignRandomPositions shuffled).map Prod.fst).count pid = 1) ∧
    (assignRandomPositions shuffled).countP
        (fun e => decide (e.2 = PositionType.LONG)) = playerIds.length / 2 ∧
    (assignRandomPositions shuffled).countP
        (fun e => decide (e.2 = PositionType.SHORT))
      = playerIds.length - playerIds.length / 2 ∧
    (assignRandomPositions shuffled).countP
        (fun e => decide (e.2 = PositionType.LONG))
      ≤ (assignRandomPositions shuffled).countP
          (fun e => decide (e.2 = PositionType.SHORT)) ∧
    (assignRandomPositions shuffled).countP
        (fun e => decide (e.2 = PositionType.SHORT))
      ≤ (assignRandomPositions shuffled).countP
          (fun e => decide (e.2 = PositionType.LONG)) + 1 := by
  have hlen : shuffled.length = playerIds.length := hperm.length_eq
  have hLONG := assign_countP_LONG shuffled
  have htot := countP_sides_total (assignRandomPositions shuffled)
  rw [assign_length shuffled] at htot
  refine ⟨?_, by omega, by omega, by omega, by omega⟩
  intro pid hmem
  rw [assign_map_fst shuffled, hperm.count_eq]
  exact List.count_eq_one_of_mem hnodup hmem

/-- Witness for C9 on the id set `["a", "b", "c"]` shuffled to
`["b", "c", "a"]`. -/
theorem assignRandomPositions_correct_witness :
    (["b", "c", "a"] : List String).Perm ["a", "b", "c"] ∧
    (["a", "b", "c"] : List String).Nodup ∧
    ((∀ pid ∈ (["a", "b", "c"] : List String),
        ((assignRandomPositions ["b", "c", "a"]).map Prod.fst).count pid = 1) ∧
     (assignRandomPositions ["b", "c", "a"]).countP
        (fun e => decide (e.2 = PositionType.LONG))
       = (["a", "b", "c"] : List String).length / 2 ∧
     (assignRandomPositions ["b", "c", "a"]).countP
        (fun e => decide (e.2 = PositionType.SHORT))
       = (["a", "b", "c"] : List String).length
           - (["a", "b", "c"] : List String).length / 2 ∧
     (assignRandomPositions ["b", "c", "a"]).countP
        (fun e => decide (e.2 = PositionType.LONG))
       ≤ (assignRandomPositions ["b", "c", "a"]).countP
           (fun e => decide (e.2 = PositionType.SHORT)) ∧
     (assignRandomPositions ["b", "c", "a"]).countP
        (fun e => decide (e.2 = PositionType.SHORT))
       ≤ (assignRandomPositions ["b", "c", "a"]).countP
           (fun e => decide (e.2 = PositionType.LONG)) + 1) :=
  ⟨by decide, by decide,
   assignRandomPositions_correct ["a", "b", "c"] ["b", "c", "a"]
     (by decide) (by decide)⟩

/-- C1 (refuted by evaluation): `shoot` credits the shot player's
balance with the payout and adds the frozen pnl to `totalPnl`
immediately (100 → 115 on balance, 0 → 5 on pnl for a bet of 10 with
frozen pnl 5), but `endRound` settles every position again, shot ones
included — `calculatePayout` ignores `didShoot` — so the same player
ends the round with balance 130 and totalPnl 10: both financial
mutations are applied twice for the one shoot settlement event. -/
theorem shoot_then_endRound_double_credit :
    (findById ((shoot 4 exampleState "p1" "r1").1).db.players "p1").map
        DbPlayer.demoBalance = some 115 ∧
    (findById (endRound (shoot 4 exampleState "p1" "r1").1).db.players "p1").map
        DbPlayer.demoBalance = some 130 ∧
    (findById ((shoot 4 exampleState "p1" "r1").1).db.players "p1").map
        DbPlayer.totalPnl = some 5 ∧
    (findById (endRound (shoot 4 exampleState "p1" "r1").1).db.players "p1").map
        DbPlayer.totalPnl = some 10 ∧
    (findById (endRound (shoot 4 exampleState "p1" "r1").1).db.players "p1").map
        DbPlayer.demoBalance ≠ some 115 := by
  refine ⟨?_, ?_, ?_, ?_, ?_⟩ <;>
    norm_num [shoot, endRound, settleOne, exampleState, exampleRound, examplePosition,
      exampleDb, lookupKey, setKey, findById, updateById, calculatePayout, calculatePnL]

/-- C2 (refuted by evaluation): after the first lobby times out with an
empty roster, `startLobby` runs again (generation 2) without clearing
the broadcast interval of generation 1 — the callback only clears
itself when `phase ≠ LOBBY`, and the phase never left LOBBY.  The stale
interval then fires and emits `lobby:update` even though its owning
lobby instance has been replaced, and it stays registered. -/
theorem lobby_interval_stale_fire :
    (lobbyRun lobbyInit [LobbyEv.startL, LobbyEv.startL, LobbyEv.fire 1]).emissions
      = [{ owner := 1, activeGen := 2, phaseAtEmission := GamePhase.LOBBY }] ∧
    (lobbyRun lobbyInit [LobbyEv.startL, LobbyEv.startL, LobbyEv.fire 1]).intervals
      = [1, 2] ∧
    (1 : Nat) ≠ 2 := by
  decide

/-- `Map.get` after `Map.set` at the same key. -/
theorem lookupKey_setKey_self {α : Type} (k : String) (v : α)
    (l : List (String × α)) : lookupKey k (setKey k v l) = some v := by
  induction l with
  | nil => simp [setKey, lookupKey]
  | cons e t ih =>
      obtain ⟨k', v'⟩ := e
      by_cases h : k' = k
      · simp [setKey, lookupKey, h]
      · simp [setKey, lookupKey, h, ih]

/-- `Map.get` after `Map.set` at a different key. -/
theorem lookupKey_setKey_ne {α : Type} (k k' : String) (v : α)
    (l : List (String × α)) (h : k' ≠ k) :
    lookupKey k (setKey k' v l) = lookupKey k l := by
  induction l with
  | nil => simp [setKey, lookupKey, h]
  | cons e t ih =>
      obtain ⟨k'', v''⟩ := e
      by_cases h2 : k'' = k'
      · subst h2
        simp [setKey, lookupKey, h]
      · by_cases h3 : k'' = k <;> simp [setKey, lookupKey, h2, h3, ih, Ne.symm h]

/-- `shoot` fails whenever the player's position in the current round
(if any) is terminal. -/
theorem shoot_isSome_of_terminal (now : Nat) (st : ServerState) (pid rid : String)
    (h : ∀ pos, lookupKey pid (positionsOf st) = some pos → terminal pos = true) :
    ((shoot now st pid rid).2).isSome := by
  obtain ⟨⟨phase, currentRound⟩, lobbyPlayers, db⟩ := st
  cases phase with
  | LOBBY => cases currentRound <;> simp [shoot]
  | ROUND =>
      cases currentRound with
      | none => simp [shoot]
      | some round =>
          by_cases hid : round.id = rid
          · cases hlk : lookupKey pid round.positions with
            | none => simp [shoot, hid, hlk]
            | some pos =>
                have hterm := h pos (by simpa [positionsOf] using hlk)
                simp only [terminal, Bool.or_eq_true] at hterm
                by_cases hds : pos.didShoot = true
                · simp [shoot, hid, hlk, hds]
                · have hliq : pos.liquidated = true := by
                    rcases hterm with h1 | h1
                    · exact h1
                    · exact absurd h1 hds
                  simp [shoot, hid, hlk, hds, hliq]
          · simp [shoot, hid]

/-- C3: `shoot(playerId, roundId)` fails and leaves the state unchanged
whenever the phase is not ROUND, the roundId mismatches the active
round, the position is missing, already shot, or liquidated; on success
it marks the position `didShoot = true` (with the frozen `currentPnl`
untouched, i.e. the value from the most recent tick), and a second
shoot on the same player afterwards always fails, so shoot succeeds at
most once per player per round. -/
theorem shoot_correct (now : Nat) (st : ServerState) (pid rid : String) :
    ((shoot now st pid rid).2.isSome → (shoot now st pid rid).1 = st) ∧
    ((st.game.phase ≠ GamePhase.ROUND ∨ st.game.currentRound = none) →
      ((shoot now st pid rid).2).isSome) ∧
    (∀ round, st.game.currentRound = some round → round.id ≠ rid →
      ((shoot now st pid rid).2).isSome) ∧
    (∀ round, st.game.currentRound = some round →
      lookupKey pid round.positions = none → ((shoot now st pid rid).2).isSome) ∧
    (∀ round pos, st.game.currentRound = some round →
      lookupKey pid round.positions = some pos → pos.didShoot = true →
      ((shoot now st pid rid).2).isSome) ∧
    (∀ round pos, st.game.currentRound = some round →
      lookupKey pid round.positions = some pos → pos.liquidated = true →
      ((shoot now st pid rid).2).isSome) ∧
    ((shoot now st pid rid).2 = none →
      ∃ round pos, st.game.currentRound = some round ∧
        st.game.phase = GamePhase.ROUND ∧ round.id = rid ∧
        lookupKey pid round.positions = some pos ∧
        pos.didShoot = false ∧ pos.liquidated = false ∧
        ∃ round', (shoot now st pid rid).1.game.currentRound = some round' ∧
          lookupKey pid round'.positions
            = some { pos with didShoot := true, shotAt := some now }) ∧
    ((shoot now st pid rid).2 = none →
      ∀ now' rid', ((shoot now' (shoot now st pid rid).1 pid rid').2).isSome) := by
  obtain ⟨⟨phase, currentRound⟩, lobbyPlayers, db⟩ := st
  cases phase with
  | LOBBY =>
      cases currentRound with
      | none => simp [shoot]
      | some round => simp [shoot]
  | ROUND =>
      cases currentRound with
      | none => simp [shoot]
      | some round =>
          by_cases hid : round.id = rid
          · cases hlk : lookupKey pid round.positions with
            | none => simp [shoot, hid, hlk]
            | some pos =>
                by_cases hds : pos.didShoot = true
                · simp [shoot, hid, hlk, hds]
                · by_cases hlq : pos.liquidated = true
                  · simp [shoot, hid, hlk, hds, hlq]
                  · -- success branch
                    refine ⟨?_, ?_, ?_, ?_, ?_, ?_, ?_, ?_⟩
                    · simp [shoot, hid, hlk, hds, hlq]
                    · simp [shoot, hid, hlk, hds, hlq]
                    · intro round2 h2 hne
                      cases h2
                      exact absurd hid hne
                    · intro round2 h2 hn
                      cases h2
                      rw [hlk] at hn
                      cases hn
                    · intro round2 pos2 h2 hp2 hds2
                      cases h2
                      rw [hlk] at hp2
                      cases hp2
                      exact absurd hds2 hds
                    · intro round2 pos2 h2 hp2 hlq2
                      cases h2
                      rw [hlk] at hp2
                      cases hp2
                      exact absurd hlq2 hlq
                    · intro _
                      refine ⟨round, pos, rfl, rfl, hid, hlk,
                        Bool.not_eq_true _ ▸ hds, Bool.not_eq_true _ ▸ hlq, ?_⟩
                      refine ⟨{ round with
                                 positions := setKey pid
                                   ({ pos with didShoot := true, shotAt := some now })
                                   round.positions },
                              ?_, ?_⟩
                      · simp [shoot, hid, hlk, hds, hlq]
                      · exact lookupKey_setKey_self pid _ round.positions
                    · intro _ now' rid'
                      apply shoot_isSome_of_terminal
                      intro pos2 hp2
                      have hcur : ((shoot now
                          { game := { phase := GamePhase.ROUND, currentRound := some round },
                            lobbyPlayers := lobbyPlayers, db := db } pid rid).1).game.currentRound
                          = some { round with
                              positions := setKey pid
                                { pos with didShoot := true, shotAt := some now }
                                round.positions } := by
                        simp [shoot, hid, hlk, hds, hlq]
                      rw [positionsOf, hcur] at hp2
                      rw [lookupKey_setKey_self pid _ round.positions] at hp2
                      cases hp2
                      simp [terminal]
          · simp [shoot, hid]

/-- Witness for C3: the characterization instantiated at the concrete
active round `exampleState`, player `p1`, round `r1`. -/
theorem shoot_correct_witness :
    ((shoot 4 exampleState "p1" "r1").2.isSome →
        (shoot 4 exampleState "p1" "r1").1 = exampleState) ∧
    ((exampleState.game.phase ≠ GamePhase.ROUND ∨
        exampleState.game.currentRound = none) →
      ((shoot 4 exampleState "p1" "r1").2).isSome) ∧
    (∀ round, exampleState.game.currentRound = some round → round.id ≠ "r1" →
      ((shoot 4 exampleState "p1" "r1").2).isSome) ∧
    (∀ round, exampleState.game.currentRound = some round →
      lookupKey "p1" round.positions = none →
      ((shoot 4 exampleState "p1" "r1").2).isSome) ∧
    (∀ round pos, exampleState.game.currentRound = some round →
      lookupKey "p1" round.positions = some pos → pos.didShoot = true →
      ((shoot 4 exampleState "p1" "r1").2).isSome) ∧
    (∀ round pos, exampleState.game.currentRound = some round →
      lookupKey "p1" round.positions = some pos → pos.liquidated = true →
      ((shoot 4 exampleState "p1" "r1").2).isSome) ∧
    ((shoot 4 exampleState "p1" "r1").2 = none →
      ∃ round pos, exampleState.game.currentRound = some round ∧
        exampleState.game.phase = GamePhase.ROUND ∧ round.id = "r1" ∧
        lookupKey "p1" round.positions = some pos ∧
        pos.didShoot = false ∧ pos.liquidated = false ∧
        ∃ round', (shoot 4 exampleState "p1" "r1").1.game.currentRound = some round' ∧
          lookupKey "p1" round'.positions
            = some { pos with didShoot := true, shotAt := some 4 }) ∧
    ((shoot 4 exampleState "p1" "r1").2 = none →
      ∀ now' rid', ((shoot now' (shoot 4 exampleState "p1" "r1").1 "p1" rid').2).isSome) :=
  shoot_correct 4 exampleState "p1" "r1"

/-- `Map.set` at a fresh key appends the entry. -/
theorem setKey_of_lookup_none {α : Type} (k : String) (v : α)
    (l : List (String × α)) (h : lookupKey k l = none) :
    setKey k v l = l ++ [(k, v)] := by
  induction l with
  | nil => simp [setKey]
  | cons e t ih =>
      obtain ⟨k', v'⟩ := e
      by_cases h2 : k' = k
      · simp [lookupKey, h2] at h
      · simp [lookupKey, h2] at h
        simp [setKey, h2, ih h]

/-- The in-place id update of the upsert keeps a row with the target
username findable. -/
theorem findByUsername_map_update_isSome (players : List DbPlayer)
    (pid uname : String) (h : (findByUsername players uname).isSome) :
    (findByUsername (players.map fun q =>
        if q.username = uname then { q with id := pid } else q) uname).isSome := by
  simp only [findByUsername, List.find?_isSome, List.mem_map] at h ⊢
  obtain ⟨x, hx, hxu⟩ := h
  have hxeq : x.username = uname := by simpa using hxu
  exact ⟨if x.username = uname then { x with id := pid } else x,
    ⟨x, hx, rfl⟩, by simp [hxeq]⟩

/-- Appending a row with the target username makes it findable. -/
theorem findByUsername_append_isSome (players : List DbPlayer) (p : DbPlayer)
    (uname : String) (hp : p.username = uname) :
    (findByUsername (players ++ [p]) uname).isSome := by
  simp only [findByUsername, List.find?_isSome, List.mem_append]
  exact ⟨p, Or.inr (by simp), by simp [hp]⟩

/-- After the upsert, a player row with the requested username exists. -/
theorem findByUsername_upsert_isSome (cfg : Config) (players : List DbPlayer)
    (pid uname : String) :
    (findByUsername (upsertByUsername cfg players pid uname).1 uname).isSome := by
  unfold upsertByUsername
  cases hf : findByUsername players uname with
  | some p =>
      exact findByUsername_map_update_isSome players pid uname (by simp [hf])
  | none =>
      exact findByUsername_append_isSome players _ uname rfl

/-- C7: `joinLobby` leaves the roster unchanged on every failure, fails
under each of the four rejection conditions — bet below the configured
minimum, phase ROUND, playerId already in the roster, persisted balance
(after the upsert) below the bet — and on success appends exactly one
roster entry for the player, who was not present before. -/
theorem joinLobby_correct (cfg : Config) (now : Nat) (st : ServerState)
    (pid uname : String) (bet : ℚ) :
    (((joinLobby cfg now st pid uname bet).2).isSome →
      (joinLobby cfg now st pid uname bet).1.lobbyPlayers = st.lobbyPlayers) ∧
    (st.game.phase = GamePhase.ROUND →
      ((joinLobby cfg now st pid uname bet).2).isSome) ∧
    (bet < cfg.MIN_BET_AMOUNT →
      ((joinLobby cfg now st pid uname bet).2).isSome) ∧
    ((lookupKey pid st.lobbyPlayers).isSome →
      ((joinLobby cfg now st pid uname bet).2).isSome) ∧
    ((upsertByUsername cfg st.db.players pid uname).2.demoBalance < bet →
      ((joinLobby cfg now st pid uname bet).2).isSome) ∧
    ((joinLobby cfg now st pid uname bet).2 = none →
      lookupKey pid st.lobbyPlayers = none ∧
      (joinLobby cfg now st pid uname bet).1.lobbyPlayers
        = st.lobbyPlayers ++ [(pid,
            { playerId := pid, username := uname, betAmount := bet,
              balance := (upsertByUsername cfg st.db.players pid uname).2.demoBalance,
              joinedAt := now })]) := by
  obtain ⟨⟨phase, currentRound⟩, lobbyPlayers, db⟩ := st
  cases phase with
  | ROUND => simp [joinLobby]
  | LOBBY =>
      by_cases hb : bet < cfg.MIN_BET_AMOUNT
      · simp [joinLobby, hb]
      · cases hlk : lookupKey pid lobbyPlayers with
        | some v => simp [joinLobby, hb, hlk]
        | none =>
            by_cases hbal :
                (upsertByUsername cfg db.players pid uname).2.demoBalance < bet
            · simp [joinLobby, hb, hlk, hbal]
            · simp [joinLobby, hb, hlk, hbal,
                setKey_of_lookup_none pid _ lobbyPlayers hlk]

/-- Witness for C7: a fresh player joins the concrete empty lobby with
bet 5 (fresh rows get the default balance, so the join succeeds). -/
theorem joinLobby_correct_witness :
    (((joinLobby exampleConfig 9 exampleLobbyState "p3" "carol" 5).2).isSome →
      (joinLobby exampleConfig 9 exampleLobbyState "p3" "carol" 5).1.lobbyPlayers
        = exampleLobbyState.lobbyPlayers) ∧
    (exampleLobbyState.game.phase = GamePhase.ROUND →
      ((joinLobby exampleConfig 9 exampleLobbyState "p3" "carol" 5).2).isSome) ∧
    ((5 : ℚ) < exampleConfig.MIN_BET_AMOUNT →
      ((joinLobby exampleConfig 9 exampleLobbyState "p3" "carol" 5).2).isSome) ∧
    ((lookupKey "p3" exampleLobbyState.lobbyPlayers).isSome →
      ((joinLobby exampleConfig 9 exampleLobbyState "p3" "carol" 5).2).isSome) ∧
    ((upsertByUsername exampleConfig exampleLobbyState.db.players "p3" "carol").2.demoBalance < 5 →
      ((joinLobby exampleConfig 9 exampleLobbyState "p3" "carol" 5).2).isSome) ∧
    ((joinLobby exampleConfig 9 exampleLobbyState "p3" "carol" 5).2 = none →
      lookupKey "p3" exampleLobbyState.lobbyPlayers = none ∧
      (joinLobby exampleConfig 9 exampleLobbyState "p3" "carol" 5).1.lobbyPlayers
        = exampleLobbyState.lobbyPlayers ++ [("p3",
            { playerId := "p3", username := "carol", betAmount := 5,
              balance := (upsertByUsername exampleConfig
                  exampleLobbyState.db.players "p3" "carol").2.demoBalance,
              joinedAt := 9 })]) :=
  joinLobby_correct exampleConfig 9 exampleLobbyState "p3" "carol" 5

/-- C10: on every rejection the in-memory roster is unchanged; but on
the insufficient-balance rejection specifically, the player upsert has
already run — the resulting state's player table is exactly the
upserted table, in which a row for the username exists. -/
theorem joinLobby_upsert_survives_rejection (cfg : Config) (now : Nat)
    (st : ServerState) (pid uname : String) (bet : ℚ) :
    (((joinLobby cfg now st pid uname bet).2).isSome →
      (joinLobby cfg now st pid uname bet).1.lobbyPlayers = st.lobbyPlayers) ∧
    (st.game.phase = GamePhase.LOBBY → ¬ bet < cfg.MIN_BET_AMOUNT →
      lookupKey pid st.lobbyPlayers = none →
      (upsertByUsername cfg st.db.players pid uname).2.demoBalance < bet →
      ((joinLobby cfg now st pid uname bet).2).isSome ∧
      (joinLobby cfg now st pid uname bet).1.db.players
        = (upsertByUsername cfg st.db.players pid uname).1 ∧
      (findByUsername (joinLobby cfg now st pid uname bet).1.db.players uname).isSome) := by
  obtain ⟨⟨phase, currentRound⟩, lobbyPlayers, db⟩ := st
  cases phase with
  | ROUND => simp [joinLobby]
  | LOBBY =>
      by_cases hb : bet < cfg.MIN_BET_AMOUNT
      · simp [joinLobby, hb]
      · cases hlk : lookupKey pid lobbyPlayers with
        | some v => simp [joinLobby, hb, hlk]
        | none =>
            by_cases hbal :
                (upsertByUsername cfg db.players pid uname).2.demoBalance < bet
            · simp [joinLobby, hb, hlk, hbal]
              exact findByUsername_upsert_isSome cfg db.players pid uname
            · simp [joinLobby, hb, hlk, hbal,
                setKey_of_lookup_none pid _ lobbyPlayers hlk]

/-- Witness for C10: player `p2` (bob, balance 50) tries to join the
concrete lobby with bet 60 and is rejected for insufficient balance. -/
theorem joinLobby_upsert_survives_rejection_witness :
    (((joinLobby exampleConfig 9 exampleLobbyState "p2" "bob" 60).2).isSome →
      (joinLobby exampleConfig 9 exampleLobbyState "p2" "bob" 60).1.lobbyPlayers
        = exampleLobbyState.lobbyPlayers) ∧
    (exampleLobbyState.game.phase = GamePhase.LOBBY → ¬ (60 : ℚ) < exampleConfig.MIN_BET_AMOUNT →
      lookupKey "p2" exampleLobbyState.lobbyPlayers = none →
      (upsertByUsername exampleConfig exampleLobbyState.db.players "p2" "bob").2.demoBalance < 60 →
      ((joinLobby exampleConfig 9 exampleLobbyState "p2" "bob" 60).2).isSome ∧
      (joinLobby exampleConfig 9 exampleLobbyState "p2" "bob" 60).1.db.players
        = (upsertByUsername exampleConfig exampleLobbyState.db.players "p2" "bob").1 ∧
      (findByUsername (joinLobby exampleConfig 9 exampleLobbyState "p2" "bob" 60).1.db.players
        "bob").isSome) :=
  joinLobby_upsert_survives_rejection exampleConfig 9 exampleLobbyState "p2" "bob" 60

/-- `Map.get` through a value-map. -/
theorem lookupKey_mapVal {α : Type} (f : α → α) (k : String)
    (l : List (String × α)) :
    lookupKey k (l.map fun e => (e.1, f e.2)) = (lookupKey k l).map f := by
  induction l with
  | nil => rfl
  | cons e t ih =>
      obtain ⟨k', v⟩ := e
      by_cases h : k' = k <;> simp [lookupKey, h, ih]

/-- A terminal position is skipped unchanged by the tick loop. -/
theorem tickPosition_of_terminal (leverage price : ℚ) (pos : PlayerPosition)
    (h : terminal pos = true) : tickPosition leverage price pos = (pos, false) := by
  have hc : (pos.liquidated || pos.didShoot) = true := by simpa [terminal] using h
  simp [tickPosition, hc]

/-- The tick loop never produces a position that is both liquidated and
shot. -/
theorem tickPosition_good (leverage price : ℚ) (pos : PlayerPosition)
    (h : (!(pos.liquidated && pos.didShoot)) = true) :
    (!((tickPosition leverage price pos).1.liquidated &&
       (tickPosition leverage price pos).1.didShoot)) = true := by
  by_cases hc : (pos.liquidated || pos.didShoot) = true
  · simp [tickPosition, hc, h]
  · obtain ⟨hlq, hds⟩ := Bool.or_eq_false_iff.mp (Bool.not_eq_true _ ▸ hc)
    by_cases hl : isLiquidated pos.positionType pos.entryPrice price leverage = true <;>
      simp [tickPosition, hc, hl, hds, hlq]

/-- Members of `setKey k v l` are the new entry or members of `l`. -/
theorem mem_setKey {α : Type} (k : String) (v : α) (l : List (String × α))
    (x : String × α) (hx : x ∈ setKey k v l) : x = (k, v) ∨ x ∈ l := by
  induction l with
  | nil => simpa [setKey] using hx
  | cons e t ih =>
      obtain ⟨k', v'⟩ := e
      by_cases h : k' = k
      · rw [setKey, if_pos h] at hx
        rcases List.mem_cons.mp hx with h1 | h1
        · exact Or.inl h1
        · exact Or.inr (List.mem_cons_of_mem _ h1)
      · rw [setKey, if_neg h] at hx
        rcases List.mem_cons.mp hx with h1 | h1
        · exact Or.inr (h1 ▸ List.mem_cons_self _ _)
        · rcases ih h1 with h2 | h2
          · exact Or.inl h2
          · exact Or.inr (List.mem_cons_of_mem _ h2)

/-- `Map.set` with a never-both value preserves the never-both
property of the whole map. -/
theorem goodPositions_setKey (k : String) (v : PlayerPosition)
    (l : List (String × PlayerPosition)) (hl : goodPositions l = true)
    (hv : (!(v.liquidated && v.didShoot)) = true) :
    goodPositions (setKey k v l) = true := by
  simp only [goodPositions, List.all_eq_true] at hl ⊢
  intro e he
  rcases mem_setKey k v l e he with rfl | hmem
  · exact hv
  · exact hl e hmem

/-- One step preserves a terminal position byte-for-byte. -/
theorem roundStep_preserves_terminal (st : ServerState) (ev : RoundEv)
    (pid : String) (pos : PlayerPosition)
    (hpos : lookupKey pid (positionsOf st) = some pos)
    (hterm : terminal pos = true) :
    lookupKey pid (positionsOf (roundStep st ev)) = some pos := by
  obtain ⟨⟨phase, currentRound⟩, lobbyPlayers, db⟩ := st
  cases ev with
  | tick price =>
      cases phase with
      | LOBBY => cases currentRound <;> simpa [roundStep, handlePriceUpdate] using hpos
      | ROUND =>
          cases currentRound with
          | none => simpa [roundStep, handlePriceUpdate] using hpos
          | some round =>
              have hpos' : lookupKey pid round.positions = some pos := by
                simpa [positionsOf] using hpos
              simp only [roundStep, handlePriceUpdate, positionsOf]
              rw [lookupKey_mapVal (fun v => (tickPosition round.leverage price v).1)
                pid round.positions, hpos']
              simp [tickPosition_of_terminal round.leverage price pos hterm]
  | shootCmd now pid' rid =>
      cases phase with
      | LOBBY => cases currentRound <;> simpa [roundStep, shoot] using hpos
      | ROUND =>
          cases currentRound with
          | none => simpa [roundStep, shoot] using hpos
          | some round =>
              have hpos' : lookupKey pid round.positions = some pos := by
                simpa [positionsOf] using hpos
              by_cases hid : round.id = rid
              · cases hlk : lookupKey pid' round.positions with
                | none => simpa [roundStep, shoot, hid, hlk] using hpos
                | some p' =>
                    by_cases hds : p'.didShoot = true
                    · simpa [roundStep, shoot, hid, hlk, hds] using hpos
                    · by_cases hlq : p'.liquidated = true
                      · simpa [roundStep, shoot, hid, hlk, hds, hlq] using hpos
                      · have hne : pid' ≠ pid := by
                          intro he
                          subst he
                          rw [hpos'] at hlk
                          cases hlk
                          simp only [terminal, Bool.or_eq_true] at hterm
                          rcases hterm with h1 | h1
                          · exact hlq h1
                          · exact hds h1
                        simp [roundStep, shoot, hid, hlk, hds, hlq, positionsOf,
                          lookupKey_setKey_ne pid pid' _ round.positions hne, hpos']
              · simpa [roundStep, shoot, hid] using hpos

/-- One step preserves the never-both invariant. -/
theorem roundStep_preserves_good (st : ServerState) (ev : RoundEv)
    (h : goodState st = true) : goodState (roundStep st ev) = true := by
  obtain ⟨⟨phase, currentRound⟩, lobbyPlayers, db⟩ := st
  cases ev with
  | tick price =>
      cases phase with
      | LOBBY => cases currentRound <;> simpa [roundStep, handlePriceUpdate] using h
      | ROUND =>
          cases currentRound with
          | none => simpa [roundStep, handlePriceUpdate] using h
          | some round =>
              have h' : goodPositions round.positions = true := by
                simpa [goodState, positionsOf] using h
              simp only [roundStep, handlePriceUpdate, goodState, positionsOf]
              simp only [goodPositions, List.all_map, List.all_eq_true] at h' ⊢
              intro e he
              exact tickPosition_good round.leverage price e.2 (h' e he)
  | shootCmd now pid' rid =>
      cases phase with
      | LOBBY => cases currentRound <;> simpa [roundStep, shoot] using h
      | ROUND =>
          cases currentRound with
          | none => simpa [roundStep, shoot] using h
          | some round =>
              have h' : goodPositions round.positions = true := by
                simpa [goodState, positionsOf] using h
              by_cases hid : round.id = rid
              · cases hlk : lookupKey pid' round.positions with
                | none => simpa [roundStep, shoot, hid, hlk] using h
                | some p' =>
                    by_cases hds : p'.didShoot = true
                    · simpa [roundStep, shoot, hid, hlk, hds] using h
                    · by_cases hlq : p'.liquidated = true
                      · simpa [roundStep, shoot, hid, hlk, hds, hlq] using h
                      · simp only [roundStep]
                        have hgp : goodPositions (setKey pid'
                            ({ p' with didShoot := true, shotAt := some now })
                            round.positions) = true :=
                          goodPositions_setKey pid' _ round.positions h'
                            (by simp [Bool.not_eq_true _ ▸ hlq])
                        simpa [shoot, hid, hlk, hds, hlq, goodState, positionsOf]
                          using hgp
              · simpa [roundStep, shoot, hid] using h

/-- Terminal positions survive any run of within-round events. -/
theorem roundRun_preserves_terminal (pid : String) (pos : PlayerPosition)
    (hterm : terminal pos = true) : ∀ (evs : List RoundEv) (st : ServerState),
    lookupKey pid (positionsOf st) = some pos →
    lookupKey pid (positionsOf (roundRun st evs)) = some pos := by
  intro evs
  induction evs with
  | nil => intro st h; exact h
  | cons ev evs ih =>
      intro st h
      exact ih (roundStep st ev) (roundStep_preserves_terminal st ev pid pos h hterm)

/-- The never-both invariant survives any run of within-round events. -/
theorem roundRun_preserves_good : ∀ (evs : List RoundEv) (st : ServerState),
    goodState st = true → goodState (roundRun st evs) = true := by
  intro evs
  induction evs with
  | nil => intro st h; exact h
  | cons ev evs ih =>
      intro st h
      exact ih (roundStep st ev) (roundStep_preserves_good st ev h)

/-- C8: within a round (any sequence of price ticks and shoot
commands), a position that is terminal (liquidated or shot) is never
touched again — in particular its `currentPnl` is never recomputed —
and no later shoot on it can succeed; and if no position starts out
both liquidated and shot, none ever becomes both. -/
theorem round_terminal_invariant (st : ServerState) (evs : List RoundEv)
    (hgood : goodState st = true) :
    goodState (roundRun st evs) = true ∧
    ∀ pid pos, lookupKey pid (positionsOf st) = some pos → terminal pos = true →
      lookupKey pid (positionsOf (roundRun st evs)) = some pos ∧
      ∀ now rid, ((shoot now (roundRun st evs) pid rid).2).isSome := by
  refine ⟨roundRun_preserves_good evs st hgood, ?_⟩
  intro pid pos hpos hterm
  have hkeep := roundRun_preserves_terminal pid pos hterm evs st hpos
  refine ⟨hkeep, ?_⟩
  intro now rid
  apply shoot_isSome_of_terminal
  intro pos2 hp2
  rw [hkeep] at hp2
  cases hp2
  exact hterm

/-- Witness for C8: the two-position round (`p2` already shot) run
through a tick at price 95 followed by a shoot by `p1`. -/
theorem round_terminal_invariant_witness :
    goodState exampleState2 = true ∧
    (goodState (roundRun exampleState2
        [RoundEv.tick 95, RoundEv.shootCmd 5 "p1" "r1"]) = true ∧
     ∀ pid pos, lookupKey pid (positionsOf exampleState2) = some pos →
       terminal pos = true →
       lookupKey pid (positionsOf (roundRun exampleState2
           [RoundEv.tick 95, RoundEv.shootCmd 5 "p1" "r1"])) = some pos ∧
       ∀ now rid, ((shoot now (roundRun exampleState2
           [RoundEv.tick 95, RoundEv.shootCmd 5 "p1" "r1"]) pid rid).2).isSome) :=
  ⟨by simp [goodState, positionsOf, goodPositions, exampleState2, exampleRound2,
      exampleRound, examplePosition, exampleShotPosition],
   round_terminal_invariant exampleState2 [RoundEv.tick 95, RoundEv.shootCmd 5 "p1" "r1"]
     (by simp [goodState, positionsOf, goodPositions, exampleState2, exampleRound2,
       exampleRound, examplePosition, exampleShotPosition])⟩

end TruthOrDie
